import Mathlib

/-!
Shallow embedding of the context-delivery subsystem of the Apex MCP server
(Cloudflare Workers + KV), covering:

* `src/src/handlers/discovery.ts` — `handleContextSubmission` (submit + FIFO cap);
* `src/apex-mcp/src/handlers/stream.ts` — `handleMCPStream` (session start,
  heartbeat timer, poll loop with undelivered computation, fetch, mark-delivered).

The Workers KV namespace (`env.CONTEXT_DATA`) is modelled as a record of four
partial maps, one per key shape used by the code (`context:<id>`,
`client:<cid>:contexts`, `client:<cid>:processed_contexts`,
`client:<cid>:last_seen`).  JSON serialisation of stored values is elided:
the store holds the parsed values directly.  `ctx.waitUntil`-scheduled
deletions are modelled as having completed.
-/

namespace ApexMCP

/-- A JavaScript value, as far as the handlers inspect one: the submission
handlers only ever test values for truthiness (`!data.clientId`,
`!data.content`) and pass them through otherwise. -/
inductive JSValue where
  | str : String → JSValue
  | num : Int → JSValue
  | boolean : Bool → JSValue
  | null : JSValue
deriving Repr, DecidableEq

/-- JavaScript truthiness, restricted to the `JSValue` fragment: `""`, `0`,
`false` and `null`/`undefined` are falsy, everything else truthy. -/
def JSValue.truthy : JSValue → Bool
  | .str s => s ≠ ""
  | .num n => n ≠ 0
  | .boolean b => b
  | .null => false

/-- The `ContextData` record built by `handleContextSubmission`
(`src/src/handlers/discovery.ts`): `{id, clientId, content, metadata,
timestamp, expiresAt}`. -/
structure ContextData where
  id : String
  clientId : String
  content : JSValue
  metadata : List (String × JSValue)
  timestamp : String
  expiresAt : String
deriving Repr, DecidableEq

/-- The KV namespace, split by key shape.  `items id` models key
`context:<id>`, `pending cid` models `client:<cid>:contexts` (a JSON array of
ids), `delivered cid` models `client:<cid>:processed_contexts`, and
`lastSeen cid` models `client:<cid>:last_seen`.  `none` is an absent
(or TTL-expired) key. -/
structure KVStore where
  items : String → Option ContextData
  pending : String → Option (List String)
  delivered : String → Option (List String)
  lastSeen : String → Option String

/-- Point update of one key of a partial map (a KV `put` for `some v`,
a KV `delete` for `none`). -/
def update (f : String → Option α) (k : String) (v : Option α) :
    String → Option α :=
  fun k' => if k' = k then v else f k'

/-- A store with every key absent. -/
def KVStore.empty : KVStore :=
  ⟨fun _ => none, fun _ => none, fun _ => none, fun _ => none⟩

/-- The body of a context-submission request, `{clientId, content, metadata?,
expiresAt?}`.  A `none` field is an absent JSON field (JS `undefined`). -/
structure SubmissionRequest where
  clientId : Option String
  content : Option JSValue
  metadata : Option (List (String × JSValue))
  expiresAt : Option String

/-- Result of a submission call, mirroring the HTTP responses of
`handleContextSubmission`: a 400 with the missing-fields message, or a 200
carrying the generated `contextId`. -/
inductive SubmitResult where
  | badRequest (message : String)
  | success (contextId : String)
deriving Repr, DecidableEq

/-- The HTTP status carried by a `SubmitResult`. -/
def SubmitResult.status : SubmitResult → Nat
  | .badRequest _ => 400
  | .success _ => 200

/-- The 400 message of `handleContextSubmission` (identical in
`src/src/handlers/context.ts`). -/
def missingFieldsMessage : String :=
  "Missing required fields: clientId and content are required"

/-- One scheduled deletion of an evicted item's `context:<id>` key
(`env.CONTEXT_DATA.delete` inside the `ctx.waitUntil` of
`handleContextSubmission`). -/
def deleteItem (st : KVStore) (rid : String) : KVStore :=
  { st with items := update st.items rid Option.none }

/-- The validation test of `handleContextSubmission`:
`if (!data.clientId || !data.content)`.  An absent field is `undefined`
(falsy); a present field is tested for JS truthiness. -/
def validSubmission (req : SubmissionRequest) : Bool :=
  (match req.clientId with
   | none => false
   | some c => c ≠ "") &&
  (match req.content with
   | none => false
   | some v => v.truthy)

/-- `handleContextSubmission` (`src/src/handlers/discovery.ts`).  Parameters
that the code obtains from the environment are passed explicitly: `contextId`
is the fresh `crypto.randomUUID()`, `now` the `new Date().toISOString()`
timestamp, and `defaultExpiresAt` the computed 24h-from-now ISO string used
when the request carries no `expiresAt`.

Steps, in source order: validate (`!data.clientId || !data.content` → 400,
nothing written); build the `ContextData`; `put context:<id>`; read
`client:<cid>:contexts` (absent → `[]`); push the new id; if the list now
exceeds 100, `splice(0, length - 100)` off the oldest ids and delete each
removed id's `context:<id>` key (the `ctx.waitUntil` deletions, modelled as
done); `put` the trimmed list back. -/
def handleContextSubmission (req : SubmissionRequest) (contextId : String)
    (now : String) (defaultExpiresAt : String) (s : KVStore) :
    SubmitResult × KVStore :=
  if validSubmission req then
    let cid := req.clientId.getD ""
    let contextData : ContextData :=
      { id := contextId
        clientId := cid
        content := req.content.getD .null
        metadata := req.metadata.getD []
        timestamp := now
        expiresAt := req.expiresAt.getD defaultExpiresAt }
    let s1 : KVStore := { s with items := update s.items contextId (some contextData) }
    let existingList := (s.pending cid).getD []
    let contextList := existingList ++ [contextId]
    let removed :=
      if contextList.length > 100 then contextList.take (contextList.length - 100) else []
    let kept :=
      if contextList.length > 100 then contextList.drop (contextList.length - 100)
      else contextList
    let s2 : KVStore := removed.foldl deleteItem s1
    let s3 : KVStore := { s2 with pending := update s2.pending cid (some kept) }
    (.success contextId, s3)
  else
    (.badRequest missingFieldsMessage, s)

/-- The per-tick computation of `newContextIds` in `handleMCPStream`
(`src/apex-mcp/src/handlers/stream.ts:104-122`): read
`client:<cid>:contexts`; when absent nothing is delivered; otherwise read
`client:<cid>:processed_contexts` (absent → `[]`) and keep the ids of the
pending list that the processed list does not include, in pending order. -/
def listUndelivered (s : KVStore) (cid : String) : List String :=
  match s.pending cid with
  | none => []
  | some availableContexts =>
      let processedContexts := (s.delivered cid).getD []
      availableContexts.filter (fun id => !(processedContexts.contains id))

/-- An SSE message enqueued by `handleMCPStream`, one constructor per message
shape the handler builds (the TS type is `{type: string, data?: any}`; the
handler constructs exactly the `connected`, `heartbeat` and `context`
shapes). -/
inductive MCPMessage where
  | connected (clientId : String) (timestamp : String)
  | heartbeat (timestamp : String)
  | context (data : ContextData)
deriving Repr, DecidableEq

/-- The `type` field of an enqueued message. -/
def MCPMessage.type : MCPMessage → String
  | .connected _ _ => "connected"
  | .heartbeat _ => "heartbeat"
  | .context _ => "context"

/-- One step of the per-tick delivery loop of `handleMCPStream`
(`stream.ts:124-137`): for one `contextId` of `newContextIds`, `get
context:<id>`; if present, enqueue a `context` event and push the id onto
`processedContexts`; if absent, do nothing. -/
def deliverStep (items : String → Option ContextData)
    (acc : List MCPMessage × List String) (contextId : String) :
    List MCPMessage × List String :=
  match items contextId with
  | some ctx => (acc.1 ++ [MCPMessage.context ctx], acc.2 ++ [contextId])
  | none => acc

/-- One poll tick of `handleMCPStream` (`stream.ts:104-152`), fault-free
store: read the pending list (absent → nothing happens); read the processed
list (absent → `[]`); filter to `newContextIds`; run the delivery loop over
them; when `newContextIds` is non-empty, `put` the extended processed list
back.  Returns the events enqueued by the tick and the store after it. -/
def pollTick (s : KVStore) (cid : String) : List MCPMessage × KVStore :=
  match s.pending cid with
  | none => ([], s)
  | some availableContexts =>
      let processedContexts := (s.delivered cid).getD []
      let newContextIds :=
        availableContexts.filter (fun id => !(processedContexts.contains id))
      let res := newContextIds.foldl (deliverStep s.items) ([], processedContexts)
      if newContextIds.length > 0 then
        (res.1, { s with delivered := update s.delivered cid (some res.2) })
      else
        (res.1, s)

/-- The client registration in `handleMCPStream` (`stream.ts:92-101`):
`if (clientId !== 'anonymous')` put `client:<cid>:last_seen`; for the
anonymous client nothing is written. -/
def registerClient (s : KVStore) (cid : String) (now : String) : KVStore :=
  if cid ≠ "anonymous" then
    { s with lastSeen := update s.lastSeen cid (some now) }
  else
    s

/-- A firing of one of the session's two timers, with the wall-clock
timestamp the heartbeat callback would read. -/
inductive TimerFire where
  | heartbeat (timestamp : String)
  | poll
deriving Repr, DecidableEq

/-- The events produced by a sequence of timer firings after session start:
a heartbeat firing enqueues one `heartbeat` event (`stream.ts:66-75`);
a poll firing runs `pollTick` against the current store and enqueues its
events. -/
def runFires (s : KVStore) (cid : String) :
    List TimerFire → List MCPMessage × KVStore
  | [] => ([], s)
  | .heartbeat t :: rest =>
      let res := runFires s cid rest
      (MCPMessage.heartbeat t :: res.1, res.2)
  | .poll :: rest =>
      let tick := pollTick s cid
      let res := runFires tick.2 cid rest
      (tick.1 ++ res.1, res.2)

/-- The full event sequence of one session (`stream.ts:51-152`): the
`start` callback synchronously enqueues the initial `connected` message
before either `setInterval` is registered, so every timer-produced event
follows it. -/
def sessionTrace (s : KVStore) (cid : String) (t0 : String)
    (fires : List TimerFire) : List MCPMessage :=
  MCPMessage.connected cid t0 :: (runFires s cid fires).1

/-!
### Fault model for the poll tick

`handleMCPStream` wraps the whole tick body in `try { … } catch (error) {
console.error(…) }` (`stream.ts:105-150`).  To state what that catch does we
re-run the tick over a store whose individual KV operations may throw; a
`Faults` record says which ones do.
-/

/-- Which KV operations of one poll tick throw: the `get` of the pending
list, the `get` of the processed list, the `get` of an individual
`context:<id>` key, or the final `put` of the processed list. -/
structure Faults where
  failPending : Bool
  failDelivered : Bool
  failItem : String → Bool
  failPutDelivered : Bool

/-- The all-succeed fault assignment. -/
def Faults.none : Faults := ⟨false, false, fun _ => false, false⟩

/-- The delivery loop over a store whose item reads may throw: events
enqueued before the throw stay enqueued; the loop stops at the first
throwing read. -/
def deliverLoopE (s : KVStore) (f : Faults) :
    List String → List MCPMessage → List String →
    List MCPMessage × Except String (List String)
  | [], events, processed => (events, .ok processed)
  | id :: rest, events, processed =>
      if f.failItem id then
        (events, .error "KV get failed")
      else
        match s.items id with
        | some ctx =>
            deliverLoopE s f rest (events ++ [MCPMessage.context ctx]) (processed ++ [id])
        | none => deliverLoopE s f rest events processed

/-- The tail of a poll tick after the delivery loop (`stream.ts:139-146`):
when the loop threw, the throw propagates; otherwise, when the tick found
new ids, `put` the extended processed list back (a throwing `put`
propagates); the only store write of the tick is this `put`. -/
def finishTick (s : KVStore) (f : Faults) (cid : String)
    (newContextIds : List String) :
    Except String (List String) → Except String KVStore
  | .error e => .error e
  | .ok processed =>
      if newContextIds.length > 0 then
        if f.failPutDelivered then .error "KV put failed"
        else .ok { s with delivered := update s.delivered cid (some processed) }
      else .ok s

/-- The body of one poll tick over a faulty store, before the `catch`:
either the tick completes with a new store, or some KV operation throws,
leaving the store unchanged (the only write is the final `put`) but keeping
the events already enqueued. -/
def pollTickE (s : KVStore) (f : Faults) (cid : String) :
    List MCPMessage × Except String KVStore :=
  if f.failPending then ([], .error "KV get failed")
  else
    match s.pending cid with
    | none => ([], .ok s)
    | some availableContexts =>
        if f.failDelivered then ([], .error "KV get failed")
        else
          let processedContexts := (s.delivered cid).getD []
          let newContextIds :=
            availableContexts.filter (fun id => !(processedContexts.contains id))
          let loopRes := deliverLoopE s f newContextIds [] processedContexts
          (loopRes.1, finishTick s f cid newContextIds loopRes.2)

/-- The poll callback as installed by `setInterval` (`stream.ts:104-152`):
the tick body under its `try`/`catch`.  A throw anywhere in the tick is
caught and logged (`console.error`), never rethrown; the timers are
untouched.  Returns the enqueued events, the store after the tick, and the
logged message if the tick threw. -/
def pollCallback (s : KVStore) (f : Faults) (cid : String) :
    List MCPMessage × KVStore × Option String :=
  match pollTickE s f cid with
  | (events, .ok s') => (events, s', Option.none)
  | (events, .error e) =>
      (events, s,
       some ("Error polling for context for client " ++ cid ++ ": " ++ e))

/-- A timer firing in the faulty-store session: a poll firing carries the
fault assignment its KV operations see. -/
inductive FireE where
  | heartbeat (timestamp : String)
  | poll (f : Faults)

/-- Whether a firing is a poll firing. -/
def FireE.isPoll : FireE → Bool
  | .poll _ => true
  | .heartbeat _ => false

/-- The session loop over faulty-store firings.  Returns the events, the
final store, and the log line (or `none`) of every executed poll tick, in
order.  Mirrors the code: neither `clearInterval` call is reachable from the
catch (`stream.ts:145-167` only clear the intervals on client disconnect),
so every scheduled firing runs. -/
def runFiresE (s : KVStore) (cid : String) :
    List FireE → List MCPMessage × KVStore × List (Option String)
  | [] => ([], s, [])
  | .heartbeat t :: rest =>
      let res := runFiresE s cid rest
      (MCPMessage.heartbeat t :: res.1, res.2)
  | .poll f :: rest =>
      let tick := pollCallback s f cid
      let res := runFiresE tick.2.1 cid rest
      (tick.1 ++ res.1, res.2.1, tick.2.2 :: res.2.2)

/-!
### Timing model of the poll timer

`stream.ts:104` installs the poll callback with `setInterval(async () => {
… await … }, 5000)`.  Under JavaScript timer semantics the interval fires
the callback at each period boundary; the promise the async callback
returns is not awaited by the timer, so an invocation whose store reads are
still pending stays in flight while later firings begin.  There is no guard
variable in the callback. -/

/-- The wall-clock time of the `i`-th firing of a `setInterval` with the
given period (first firing one full period after installation). -/
def pollFireTime (period i : Nat) : Nat := period * (i + 1)

/-- Invocation `i` of the poll callback is in flight at time `t`: it has
fired and its awaited store work, of duration `d i`, has not finished.
Nothing in the callback delays or cancels a firing, so the start time is
the firing time itself. -/
def pollInFlight (period : Nat) (d : Nat → Nat) (i t : Nat) : Prop :=
  pollFireTime period i ≤ t ∧ t < pollFireTime period i + d i

instance (period : Nat) (d : Nat → Nat) (i t : Nat) :
    Decidable (pollInFlight period d i t) :=
  inferInstanceAs (Decidable (_ ∧ _))

/-!
### Concrete fixtures

Small concrete stores and requests used to instantiate the theorems below.
-/

/-- A stored context item for client `c1`. -/
def ctxB : ContextData := ⟨"b", "c1", .str "hello", [], "t", "e"⟩

/-- A store where client `c1` has pending ids `["a", "b"]`, the item behind
`"a"` has expired (its key is absent) and the item behind `"b"` is present. -/
def sEx : KVStore :=
  { items := update (fun _ => Option.none) "b" (some ctxB)
    pending := update (fun _ => Option.none) "c1" (some ["a", "b"])
    delivered := fun _ => Option.none
    lastSeen := fun _ => Option.none }

/-- A well-formed submission for client `c1`. -/
def reqEx : SubmissionRequest := ⟨some "c1", some (.str "x"), Option.none, Option.none⟩

/-- A submission whose `clientId` and `content` fields are both present but
whose `content` is the empty string (falsy in JS). -/
def reqFalsy : SubmissionRequest := ⟨some "a", some (.str ""), Option.none, Option.none⟩

/-- A well-formed submission for the `anonymous` client. -/
def reqAnon : SubmissionRequest :=
  ⟨some "anonymous", some (.str "x"), Option.none, Option.none⟩

/-- A store where client `c1` already has 100 pending ids. -/
def s100 : KVStore :=
  { KVStore.empty with
      pending := update (fun _ => Option.none) "c1" (some (List.replicate 100 "x")) }

/-- A duration assignment where every poll tick's store work takes 7
seconds, i.e. outlasts the 5-second poll period. -/
def dSlow : Nat → Nat := fun _ => 7000

/-- A fault assignment where the read of the pending list throws. -/
def faultPendingRead : Faults := ⟨true, false, fun _ => false, false⟩

/-!
### Helper lemmas
-/

theorem update_self (f : String → Option α) (k : String) (v : Option α) :
    update f k v k = v := by
  simp [update]

theorem foldl_deleteItem_pending (l : List String) (s : KVStore) :
    (l.foldl deleteItem s).pending = s.pending := by
  induction l generalizing s with
  | nil => rfl
  | cons a t ih => exact ih (deleteItem s a)

theorem foldl_deleteItem_delivered (l : List String) (s : KVStore) :
    (l.foldl deleteItem s).delivered = s.delivered := by
  induction l generalizing s with
  | nil => rfl
  | cons a t ih => exact ih (deleteItem s a)

theorem foldl_deleteItem_items_of_not_mem (l : List String) (s : KVStore)
    (rid : String) (h : rid ∉ l) :
    (l.foldl deleteItem s).items rid = s.items rid := by
  induction l generalizing s with
  | nil => rfl
  | cons a t ih =>
    have ha : rid ≠ a := fun he => h (he ▸ List.mem_cons_self a t)
    have ht : rid ∉ t := fun hm => h (List.mem_cons_of_mem a hm)
    rw [List.foldl_cons, ih (deleteItem s a) ht]
    simp [deleteItem, update, ha]

theorem foldl_deleteItem_items_of_mem (l : List String) (s : KVStore)
    (rid : String) (h : rid ∈ l) :
    (l.foldl deleteItem s).items rid = Option.none := by
  induction l generalizing s with
  | nil => cases h
  | cons a t ih =>
    by_cases hrt : rid ∈ t
    · exact ih (deleteItem s a) hrt
    · have hra : rid = a := by
        rcases List.mem_cons.mp h with h1 | h2
        · exact h1
        · exact absurd h2 hrt
      rw [List.foldl_cons, foldl_deleteItem_items_of_not_mem t (deleteItem s a) rid hrt]
      simp [deleteItem, update, hra]

theorem foldl_deliverStep_eq (items : String → Option ContextData)
    (ids : List String) (evs : List MCPMessage) (proc : List String) :
    ids.foldl (deliverStep items) (evs, proc) =
      (evs ++ ids.filterMap (fun j => (items j).map MCPMessage.context),
       proc ++ ids.filter (fun j => (items j).isSome)) := by
  induction ids generalizing evs proc with
  | nil => simp
  | cons a t ih =>
    cases h : items a with
    | none => simp [List.foldl_cons, deliverStep, h, ih]
    | some ctx => simp [List.foldl_cons, deliverStep, h, ih]

theorem mem_listUndelivered (s : KVStore) (cid id : String) :
    id ∈ listUndelivered s cid ↔
      id ∈ (s.pending cid).getD [] ∧ id ∉ (s.delivered cid).getD [] := by
  unfold listUndelivered
  cases hp : s.pending cid with
  | none => simp
  | some avail => simp [List.mem_filter, List.elem_iff]

theorem pollTick_events (s : KVStore) (cid : String) :
    (pollTick s cid).1 =
      (listUndelivered s cid).filterMap
        (fun j => (s.items j).map MCPMessage.context) := by
  unfold pollTick listUndelivered
  cases hp : s.pending cid with
  | none => simp
  | some avail =>
    dsimp only
    rw [foldl_deliverStep_eq]
    split <;> simp

theorem pollTick_pending (s : KVStore) (cid : String) :
    (pollTick s cid).2.pending = s.pending := by
  unfold pollTick
  cases hp : s.pending cid with
  | none => rfl
  | some avail =>
    dsimp only
    split <;> rfl

theorem pollTick_delivered_getD (s : KVStore) (cid : String) :
    ((pollTick s cid).2.delivered cid).getD [] =
      (s.delivered cid).getD [] ++
        (listUndelivered s cid).filter (fun j => (s.items j).isSome) := by
  unfold pollTick listUndelivered
  cases hp : s.pending cid with
  | none => simp
  | some avail =>
    dsimp only
    rw [foldl_deliverStep_eq]
    by_cases hl :
        (avail.filter
          (fun id => !(((s.delivered cid).getD []).contains id))).length > 0
    · simp only [hl, if_pos, update_self]
      rfl
    · have hnil :
          avail.filter
            (fun id => !(((s.delivered cid).getD []).contains id)) = [] := by
        exact List.eq_nil_of_length_eq_zero (by omega)
      rw [hnil]
      simp

theorem pollTick_events_type (s : KVStore) (cid : String) :
    ∀ e ∈ (pollTick s cid).1, MCPMessage.type e = "context" := by
  rw [pollTick_events]
  intro e he
  rcases List.mem_filterMap.mp he with ⟨j, _, hmap⟩
  cases hi : s.items j with
  | none => rw [hi] at hmap; cases hmap
  | some ctx =>
    rw [hi] at hmap
    cases hmap
    rfl

theorem deliverLoopE_noFaults (s : KVStore) (ids : List String)
    (evs : List MCPMessage) (proc : List String) :
    deliverLoopE s Faults.none ids evs proc =
      (evs ++ ids.filterMap (fun j => (s.items j).map MCPMessage.context),
       .ok (proc ++ ids.filter (fun j => (s.items j).isSome))) := by
  induction ids generalizing evs proc with
  | nil => simp [deliverLoopE]
  | cons a t ih =>
    have hfi : Faults.none.failItem a = false := rfl
    cases h : s.items a with
    | none => simp [deliverLoopE, hfi, h, ih]
    | some ctx => simp [deliverLoopE, hfi, h, ih]

theorem pollTickE_noFaults (s : KVStore) (cid : String) :
    pollTickE s Faults.none cid = ((pollTick s cid).1, Except.ok (pollTick s cid).2) := by
  unfold pollTickE pollTick
  rw [if_neg (show ¬(Faults.none.failPending = true) by decide)]
  split
  · rfl
  · rename_i avail hpend
    rw [if_neg (show ¬(Faults.none.failDelivered = true) by decide)]
    dsimp only
    rw [deliverLoopE_noFaults, foldl_deliverStep_eq]
    dsimp only
    simp only [finishTick]
    by_cases hl : (avail.filter
        (fun id => !(((s.delivered cid).getD []).contains id))).length > 0
    · rw [if_pos hl, if_pos hl,
        if_neg (show ¬(Faults.none.failPutDelivered = true) by decide)]
    · rw [if_neg hl, if_neg hl]

theorem pollCallback_noFaults_log (s : KVStore) (cid : String) :
    (pollCallback s Faults.none cid).2.2 = Option.none := by
  unfold pollCallback
  rw [pollTickE_noFaults]

theorem deliverLoopE_events_type (s : KVStore) (f : Faults) (ids : List String)
    (evs : List MCPMessage) (proc : List String)
    (h : ∀ e ∈ evs, MCPMessage.type e = "context") :
    ∀ e ∈ (deliverLoopE s f ids evs proc).1, MCPMessage.type e = "context" := by
  induction ids generalizing evs proc with
  | nil => exact h
  | cons a t ih =>
    by_cases hf : f.failItem a = true
    · have heq : deliverLoopE s f (a :: t) evs proc = (evs, .error "KV get failed") := by
        simp [deliverLoopE, hf]
      rw [heq]
      exact h
    · cases hi : s.items a with
      | none =>
        have heq : deliverLoopE s f (a :: t) evs proc = deliverLoopE s f t evs proc := by
          simp [deliverLoopE, hf, hi]
        rw [heq]
        exact ih evs proc h
      | some ctx =>
        have heq : deliverLoopE s f (a :: t) evs proc =
            deliverLoopE s f t (evs ++ [MCPMessage.context ctx]) (proc ++ [a]) := by
          simp [deliverLoopE, hf, hi]
        rw [heq]
        refine ih _ _ ?_
        intro e he
        rcases List.mem_append.mp he with h1 | h1
        · exact h e h1
        · rw [List.mem_singleton.mp h1]
          rfl

theorem pollTickE_events_type (s : KVStore) (f : Faults) (cid : String) :
    ∀ e ∈ (pollTickE s f cid).1, MCPMessage.type e = "context" := by
  intro e he
  unfold pollTickE at he
  have hloop : ∀ (ids : List String) (proc : List String) (evs : List MCPMessage)
      (res : Except String (List String)),
      deliverLoopE s f ids [] proc = (evs, res) → e ∈ evs →
      MCPMessage.type e = "context" := by
    intro ids proc evs res hdl hmem
    have h1 := deliverLoopE_events_type s f ids [] proc
      (by intro e' he'; cases he') e
    rw [hdl] at h1
    exact h1 hmem
  split at he
  · cases he
  · split at he
    · cases he
    · split at he
      · cases he
      · exact hloop _ _ _ _ rfl he

theorem pollCallback_events_type (s : KVStore) (f : Faults) (cid : String) :
    ∀ e ∈ (pollCallback s f cid).1, MCPMessage.type e = "context" := by
  unfold pollCallback
  rcases hte : pollTickE s f cid with ⟨events, res⟩
  have hev : ∀ e ∈ events, MCPMessage.type e = "context" := by
    intro e he
    have := pollTickE_events_type s f cid e
    rw [hte] at this
    exact this he
  cases res with
  | ok s1 => exact hev
  | error e => exact hev

theorem runFires_no_connected (cid : String) (fires : List TimerFire) :
    ∀ s : KVStore, ∀ e ∈ (runFires s cid fires).1, MCPMessage.type e ≠ "connected" := by
  induction fires with
  | nil => intro s e he; cases he
  | cons fr t ih =>
    intro s e he
    cases fr with
    | heartbeat ts =>
      rcases List.mem_cons.mp he with h1 | h1
      · rw [h1]; simp [MCPMessage.type]
      · exact ih s e h1
    | poll =>
      rcases List.mem_append.mp he with h1 | h1
      · rw [pollTick_events_type s cid e h1]
        decide
      · exact ih (pollTick s cid).2 e h1

theorem runFiresE_logs_length (cid : String) (fires : List FireE) :
    ∀ s : KVStore,
      ((runFiresE s cid fires).2.2).length = (fires.filter FireE.isPoll).length := by
  induction fires with
  | nil => intro s; rfl
  | cons fr t ih =>
    intro s
    cases fr with
    | heartbeat ts => simpa [runFiresE, FireE.isPoll] using ih s
    | poll f => simp [runFiresE, FireE.isPoll, ih]

theorem runFiresE_heartbeat_count (cid : String) (fires : List FireE) :
    ∀ s : KVStore,
      ((runFiresE s cid fires).1.countP (fun e => MCPMessage.type e == "heartbeat")) =
        fires.countP (fun fr => !fr.isPoll) := by
  induction fires with
  | nil => intro s; rfl
  | cons fr t ih =>
    intro s
    cases fr with
    | heartbeat ts =>
      have h1 : (runFiresE s cid (FireE.heartbeat ts :: t)).1 =
          MCPMessage.heartbeat ts :: (runFiresE s cid t).1 := rfl
      rw [h1, List.countP_cons, ih s, List.countP_cons]
      simp [MCPMessage.type, FireE.isPoll]
    | poll f =>
      have hz :
          ((pollCallback s f cid).1.countP
            (fun e => MCPMessage.type e == "heartbeat")) = 0 := by
        refine List.countP_eq_zero.mpr ?_
        intro e he
        rw [pollCallback_events_type s f cid e he]
        decide
      have h1 : (runFiresE s cid (FireE.poll f :: t)).1 =
          (pollCallback s f cid).1 ++ (runFiresE (pollCallback s f cid).2.1 cid t).1 := rfl
      rw [h1, List.countP_append, hz, ih ((pollCallback s f cid).2.1), List.countP_cons]
      simp [FireE.isPoll]

theorem mem_drop_append_last (l : List String) (c : String) (k : Nat)
    (hk : k ≤ l.length) : c ∈ (l ++ [c]).drop k := by
  rw [List.drop_append_of_le_length hk]
  exact List.mem_append_right _ (List.mem_singleton_self c)

theorem submit_success_state (s : KVStore) (req : SubmissionRequest)
    (contextId now dflt : String) (h : validSubmission req = true) :
    (handleContextSubmission req contextId now dflt s).2.pending (req.clientId.getD "") =
      some ((((s.pending (req.clientId.getD "")).getD []) ++ [contextId]).drop
        ((((s.pending (req.clientId.getD "")).getD []) ++ [contextId]).length - 100)) ∧
    (handleContextSubmission req contextId now dflt s).2.delivered = s.delivered ∧
    ∀ rid ∈ (((s.pending (req.clientId.getD "")).getD []) ++ [contextId]).take
        ((((s.pending (req.clientId.getD "")).getD []) ++ [contextId]).length - 100),
      (handleContextSubmission req contextId now dflt s).2.items rid = Option.none := by
  unfold handleContextSubmission
  rw [if_pos h]
  dsimp only
  by_cases hlen :
      (((s.pending (req.clientId.getD "")).getD []) ++ [contextId]).length > 100
  · rw [if_pos hlen, if_pos hlen]
    refine ⟨update_self _ _ _, ?_, ?_⟩
    · rw [foldl_deleteItem_delivered]
    · intro rid hrid
      exact foldl_deleteItem_items_of_mem _ _ rid hrid
  · rw [if_neg hlen, if_neg hlen]
    have h0 :
        (((s.pending (req.clientId.getD "")).getD []) ++ [contextId]).length - 100 = 0 := by
      omega
    rw [h0, List.drop_zero, List.take_zero]
    refine ⟨update_self _ _ _, rfl, ?_⟩
    intro rid hrid
    cases hrid

/-!
### Claim theorems
-/

/-- C1: `listUndelivered(clientId)` returns exactly the ids present in the
client's pending index (`client:<id>:contexts`) and absent from the client's
delivered index (`client:<id>:processed_contexts`), in the same relative
order as the pending index (it is a sublist of the pending index). -/
theorem C1_listUndelivered_exact (s : KVStore) (cid : String) :
    List.Sublist (listUndelivered s cid) ((s.pending cid).getD []) ∧
    ∀ id : String, id ∈ listUndelivered s cid ↔
      id ∈ (s.pending cid).getD [] ∧ id ∉ (s.delivered cid).getD [] := by
  constructor
  · unfold listUndelivered
    cases hp : s.pending cid with
    | none => simp
    | some avail => exact List.filter_sublist avail
  · exact fun id => mem_listUndelivered s cid id

/-- Witness for C1: in the concrete store `sEx`, id `"a"` is pending and
undelivered, and `listUndelivered` reports it. -/
theorem C1_witness : "a" ∈ listUndelivered sEx "c1" :=
  ((C1_listUndelivered_exact sEx "c1").2 "a").mpr ⟨by decide, by decide⟩

/-- C2: after every valid submission, the client's pending index equals the
old index plus the new id with exactly the oldest entries beyond the
100-cap dropped (so its length is at most 100), and every dropped id's
backing `context:<id>` item is deleted from the store. -/
theorem C2_submit_fifo_cap (s : KVStore) (req : SubmissionRequest)
    (contextId now dflt : String) (h : validSubmission req = true) :
    (handleContextSubmission req contextId now dflt s).2.pending (req.clientId.getD "") =
      some ((((s.pending (req.clientId.getD "")).getD []) ++ [contextId]).drop
        ((((s.pending (req.clientId.getD "")).getD []) ++ [contextId]).length - 100)) ∧
    ((((s.pending (req.clientId.getD "")).getD []) ++ [contextId]).drop
        ((((s.pending (req.clientId.getD "")).getD []) ++ [contextId]).length - 100)).length
      ≤ 100 ∧
    ∀ rid ∈ (((s.pending (req.clientId.getD "")).getD []) ++ [contextId]).take
        ((((s.pending (req.clientId.getD "")).getD []) ++ [contextId]).length - 100),
      (handleContextSubmission req contextId now dflt s).2.items rid = Option.none := by
  obtain ⟨h1, _, h3⟩ := submit_success_state s req contextId now dflt h
  refine ⟨h1, ?_, h3⟩
  rw [List.length_drop]
  omega

/-- Witness for C2: submitting a 101st item for a client whose pending
index already holds 100 ids keeps the index at 100 ids and deletes the
evicted oldest item's backing key. -/
theorem C2_witness :
    validSubmission reqEx = true ∧
    ((((s100.pending (reqEx.clientId.getD "")).getD []) ++ ["new"]).drop
        ((((s100.pending (reqEx.clientId.getD "")).getD []) ++ ["new"]).length - 100)).length
      ≤ 100 ∧
    (handleContextSubmission reqEx "new" "t" "e" s100).2.items "x" = Option.none := by
  have h := C2_submit_fifo_cap s100 reqEx "new" "t" "e" (by decide)
  exact ⟨by decide, h.2.1, h.2.2 "x" (by decide)⟩

/-- C3 counterexample: a submission whose `clientId` and `content` fields
are both present, with `content = ""`, is rejected with the 400
missing-fields error rather than accepted — the claim's success guarantee
for "both fields present" fails on present-but-falsy fields. -/
theorem C3_counterexample :
    reqFalsy.clientId.isSome = true ∧ reqFalsy.content.isSome = true ∧
    (handleContextSubmission reqFalsy "i1" "t0" "e0" KVStore.empty).1 =
      SubmitResult.badRequest missingFieldsMessage := by decide

/-- C3 (amended): a submission whose `clientId` or `content` is absent or
falsy is rejected with the 400 missing-fields error and nothing is
persisted; a submission with both fields present and truthy returns success
carrying the generated id. -/
theorem C3_submit_validation (req : SubmissionRequest) (contextId now dflt : String)
    (s : KVStore) :
    (validSubmission req = false →
      (handleContextSubmission req contextId now dflt s).1 =
        SubmitResult.badRequest missingFieldsMessage ∧
      (handleContextSubmission req contextId now dflt s).2 = s) ∧
    (validSubmission req = true →
      (handleContextSubmission req contextId now dflt s).1 =
        SubmitResult.success contextId) := by
  constructor
  · intro hv
    unfold handleContextSubmission
    rw [if_neg (by rw [hv]; exact Bool.false_ne_true)]
    exact ⟨rfl, rfl⟩
  · intro hv
    unfold handleContextSubmission
    rw [if_pos hv]

/-- Witness for C3 (amended): a well-formed submission succeeds with the
generated id; one with an absent `clientId` is rejected. -/
theorem C3_witness :
    (handleContextSubmission reqEx "i1" "t" "e" KVStore.empty).1 =
      SubmitResult.success "i1" ∧
    (handleContextSubmission ⟨Option.none, some (.str "x"), Option.none, Option.none⟩
        "i1" "t" "e" KVStore.empty).1 =
      SubmitResult.badRequest missingFieldsMessage :=
  ⟨(C3_submit_validation reqEx "i1" "t" "e" KVStore.empty).2 (by decide),
   ((C3_submit_validation ⟨Option.none, some (.str "x"), Option.none, Option.none⟩
       "i1" "t" "e" KVStore.empty).1 (by decide)).1⟩

/-- C4 counterexample: submitting with `clientId = "anonymous"` does create
a pending index entry, and a later `listUndelivered("anonymous")` (e.g. in
a new session) observes the submitted id — contradicting the claim that it
observes no id produced by the submission. -/
theorem C4_counterexample :
    listUndelivered (handleContextSubmission reqAnon "i1" "t" "e" KVStore.empty).2
      "anonymous" = ["i1"] := by decide

/-- C4 (amended): submission treats `"anonymous"` like any other clientId —
the id is appended to the anonymous pending index and observed by a later
`listUndelivered("anonymous")` (when not already delivered); what is skipped
for anonymous clients is only the stream handler's `last_seen`
registration. -/
theorem C4_anonymous_submission_indexed (s : KVStore) (v : JSValue)
    (contextId now dflt ts : String) (hv : v.truthy = true)
    (hnd : contextId ∉ (s.delivered "anonymous").getD []) :
    contextId ∈ listUndelivered
      (handleContextSubmission ⟨some "anonymous", some v, Option.none, Option.none⟩
        contextId now dflt s).2 "anonymous" ∧
    registerClient s "anonymous" ts = s := by
  have hvalid :
      validSubmission ⟨some "anonymous", some v, Option.none, Option.none⟩ = true := by
    simp [validSubmission, hv]
  obtain ⟨h1, h2, _⟩ := submit_success_state s
    ⟨some "anonymous", some v, Option.none, Option.none⟩ contextId now dflt hvalid
  constructor
  · rw [mem_listUndelivered]
    constructor
    · have h1x : (handleContextSubmission
          ⟨some "anonymous", some v, Option.none, Option.none⟩
          contextId now dflt s).2.pending "anonymous" =
          some ((((s.pending "anonymous").getD []) ++ [contextId]).drop
            ((((s.pending "anonymous").getD []) ++ [contextId]).length - 100)) := h1
      rw [h1x]
      exact mem_drop_append_last ((s.pending "anonymous").getD []) contextId _
        (by rw [List.length_append, List.length_singleton]; omega)
    · rw [h2]
      exact hnd
  · simp [registerClient]

/-- Witness for C4 (amended): an anonymous submission into the empty store
is observed by `listUndelivered("anonymous")`. -/
theorem C4_witness :
    "i1" ∈ listUndelivered
      (handleContextSubmission ⟨some "anonymous", some (.str "x"), Option.none, Option.none⟩
        "i1" "t" "e" KVStore.empty).2 "anonymous" :=
  (C4_anonymous_submission_indexed KVStore.empty (.str "x") "i1" "t" "e" "ts"
    (by decide) (by decide)).1

/-- C5: every session trace starts with the single `connected` event —
it is the head of the trace, occurs exactly once, and no timer-produced
event in the tail is a `connected` event. -/
theorem C5_connected_first (s : KVStore) (cid t0 : String) (fires : List TimerFire) :
    (sessionTrace s cid t0 fires).countP (fun e => MCPMessage.type e == "connected") = 1 ∧
    (sessionTrace s cid t0 fires).head? = some (MCPMessage.connected cid t0) ∧
    ∀ e ∈ (sessionTrace s cid t0 fires).tail, MCPMessage.type e ≠ "connected" := by
  refine ⟨?_, rfl, ?_⟩
  · show List.countP _ (MCPMessage.connected cid t0 :: (runFires s cid fires).1) = 1
    rw [List.countP_cons]
    have hz : List.countP (fun e => MCPMessage.type e == "connected")
        (runFires s cid fires).1 = 0 :=
      List.countP_eq_zero.mpr (fun e he => by
        have hne := runFires_no_connected cid fires s e he
        simpa using hne)
    rw [hz]
    simp [MCPMessage.type]
  · intro e he
    exact runFires_no_connected cid fires s e he

/-- Witness for C5: a concrete trace with a heartbeat firing and a poll
firing contains exactly one `connected` event. -/
theorem C5_witness :
    (sessionTrace sEx "c1" "t0" [TimerFire.heartbeat "h1", TimerFire.poll]).countP
      (fun e => MCPMessage.type e == "connected") = 1 :=
  (C5_connected_first sEx "c1" "t0" [TimerFire.heartbeat "h1", TimerFire.poll]).1

/-- C6 counterexample: with a 5-second period and ticks whose store work
takes 7 seconds, invocations 0 and 1 of the poll callback are both in
flight at time 10000 — the firing at 10000 started while the previous tick
was still running instead of being skipped, so ticks do overlap. -/
theorem C6_counterexample :
    pollInFlight 5000 dSlow 0 10000 ∧ pollInFlight 5000 dSlow 1 10000 := by
  decide

/-- C6 (amended): poll ticks are not serialized — `setInterval` starts a
new invocation of the async poll callback at every period boundary
regardless of whether the previous invocation has completed, so whenever a
tick's store work outlasts the period, that tick and the next run
concurrently. -/
theorem C6_ticks_overlap (period : Nat) (d : Nat → Nat) (i : Nat)
    (hp : 0 < period) (hdi : period < d i) (hdn : 0 < d (i + 1)) :
    pollInFlight period d i (pollFireTime period (i + 1)) ∧
    pollInFlight period d (i + 1) (pollFireTime period (i + 1)) := by
  have hft : pollFireTime period (i + 1) = pollFireTime period i + period := by
    unfold pollFireTime
    ring
  unfold pollInFlight
  refine ⟨⟨?_, ?_⟩, ?_, ?_⟩ <;> omega

/-- Witness for C6 (amended): at period 5000 with 7000-unit ticks, tick 0
and tick 1 are both in flight at tick 1's own fire time. -/
theorem C6_witness :
    pollInFlight 5000 dSlow 0 (pollFireTime 5000 (0 + 1)) ∧
    pollInFlight 5000 dSlow (0 + 1) (pollFireTime 5000 (0 + 1)) :=
  C6_ticks_overlap 5000 dSlow 0 (by decide) (by decide) (by decide)

/-- C7: an undelivered id whose backing item is absent from the store
produces no event in the tick (every emitted event stems from some other
undelivered id whose item is present), the remaining ids of the tick are
still delivered, and the tick raises no error (the fault-free tick logs
nothing). -/
theorem C7_absent_item_skipped (s : KVStore) (cid id : String)
    (hmem : id ∈ listUndelivered s cid) (habs : s.items id = Option.none) :
    (∀ e ∈ (pollTick s cid).1, ∃ j, j ∈ listUndelivered s cid ∧ j ≠ id ∧
        ∃ ctx, s.items j = some ctx ∧ e = MCPMessage.context ctx) ∧
    (∀ j ∈ listUndelivered s cid, ∀ ctx : ContextData, s.items j = some ctx →
        MCPMessage.context ctx ∈ (pollTick s cid).1) ∧
    (pollCallback s Faults.none cid).2.2 = Option.none := by
  refine ⟨?_, ?_, pollCallback_noFaults_log s cid⟩
  · intro e he
    rw [pollTick_events] at he
    rcases List.mem_filterMap.mp he with ⟨j, hj, hmap⟩
    cases hi : s.items j with
    | none =>
      rw [hi] at hmap
      simp at hmap
    | some ctx =>
      rw [hi] at hmap
      refine ⟨j, hj, ?_, ctx, hi, ?_⟩
      · intro hji
        rw [hji, habs] at hi
        cases hi
      · cases hmap
        rfl
  · intro j hj ctx hctx
    rw [pollTick_events]
    exact List.mem_filterMap.mpr ⟨j, hj, by rw [hctx]; rfl⟩

/-- Witness for C7: in `sEx`, id `"a"` is undelivered but its item is
absent; the tick still emits the context event of the present item behind
`"b"`. -/
theorem C7_witness : MCPMessage.context ctxB ∈ (pollTick sEx "c1").1 :=
  (C7_absent_item_skipped sEx "c1" "a" (by decide) (by decide)).2.1 "b" (by decide)
    ctxB (by decide)

/-- C8: poll-tick errors are contained to the tick — for every fault
assignment of every scheduled poll firing, the session loop still executes
every firing (one log slot per poll firing, all heartbeats still emitted),
and a tick whose body throws yields exactly the logged `console.error`
message while leaving the store untouched. -/
theorem C8_poll_errors_contained (s : KVStore) (cid : String) (fires : List FireE) :
    ((runFiresE s cid fires).2.2).length = (fires.filter FireE.isPoll).length ∧
    ((runFiresE s cid fires).1.countP (fun e => MCPMessage.type e == "heartbeat")) =
      fires.countP (fun fr => !fr.isPoll) ∧
    ∀ f : Faults, ∀ msg : String, (pollTickE s f cid).2 = Except.error msg →
      (pollCallback s f cid).2.2 =
        some ("Error polling for context for client " ++ cid ++ ": " ++ msg) ∧
      (pollCallback s f cid).2.1 = s := by
  refine ⟨runFiresE_logs_length cid fires s, runFiresE_heartbeat_count cid fires s, ?_⟩
  intro f msg herr
  unfold pollCallback
  rcases hte : pollTickE s f cid with ⟨evs, res⟩
  rw [hte] at herr
  cases res with
  | ok s1 =>
    have h2 : (Except.ok s1 : Except String KVStore) = Except.error msg := herr
    cases h2
  | error e2 =>
    have h2 : (Except.error e2 : Except String KVStore) = Except.error msg := herr
    injection h2 with h3
    subst h3
    exact ⟨rfl, rfl⟩

/-- Witness for C8: a tick whose pending-list read throws logs the poll
error message and leaves the store unchanged. -/
theorem C8_witness :
    (pollCallback sEx faultPendingRead "c1").2.2 =
      some ("Error polling for context for client " ++ "c1" ++ ": " ++ "KV get failed") ∧
    (pollCallback sEx faultPendingRead "c1").2.1 = sEx :=
  (C8_poll_errors_contained sEx "c1" []).2.2 faultPendingRead "KV get failed" rfl

/-- C9: the delivered index written by a poll tick equals the delivered
index read at the start of the tick plus exactly the undelivered ids whose
fetch succeeded (emitted ids), in order; the tick leaves the pending index
unchanged, and an id whose item was absent is not added, so it is still in
the next tick's undelivered set. -/
theorem C9_mark_delivered_exact (s : KVStore) (cid : String) :
    ((pollTick s cid).2.delivered cid).getD [] =
      (s.delivered cid).getD [] ++
        (listUndelivered s cid).filter (fun j => (s.items j).isSome) ∧
    (pollTick s cid).2.pending = s.pending ∧
    ∀ id : String, id ∈ listUndelivered s cid → s.items id = Option.none →
      id ∈ listUndelivered (pollTick s cid).2 cid := by
  refine ⟨pollTick_delivered_getD s cid, pollTick_pending s cid, ?_⟩
  intro id hid habs
  rw [mem_listUndelivered] at hid ⊢
  refine ⟨?_, ?_⟩
  · rw [pollTick_pending]
    exact hid.1
  · rw [pollTick_delivered_getD]
    intro hcontra
    rcases List.mem_append.mp hcontra with h1 | h1
    · exact hid.2 h1
    · have hs := (List.mem_filter.mp h1).2
      rw [habs] at hs
      exact absurd hs (by simp)

/-- Witness for C9: in `sEx`, id `"a"` (absent item) is still undelivered
after the tick that delivered `"b"`. -/
theorem C9_witness : "a" ∈ listUndelivered (pollTick sEx "c1").2 "c1" :=
  (C9_mark_delivered_exact sEx "c1").2.2 "a" (by decide) (by decide)

/-- C10: validation tests the fields for JS falsiness, not absence — a
submission whose `clientId` is the empty string, or whose `content` is the
empty string, `0`, or `false`, is rejected with the same 400 missing-fields
error as an absent field, and the store is unchanged. -/
theorem C10_falsy_fields_rejected (req : SubmissionRequest)
    (contextId now dflt : String) (s : KVStore)
    (h : req.clientId = some "" ∨ req.content = some (JSValue.str "") ∨
         req.content = some (JSValue.num 0) ∨ req.content = some (JSValue.boolean false)) :
    (handleContextSubmission req contextId now dflt s).1 =
      SubmitResult.badRequest missingFieldsMessage ∧
    (handleContextSubmission req contextId now dflt s).2 = s := by
  have hv : validSubmission req = false := by
    unfold validSubmission
    rcases h with h | h | h | h <;> rw [h] <;> simp [JSValue.truthy]
  unfold handleContextSubmission
  rw [if_neg (by rw [hv]; exact Bool.false_ne_true)]
  exact ⟨rfl, rfl⟩

/-- Witness for C10: a present-but-empty `clientId` is rejected with the
missing-fields error. -/
theorem C10_witness :
    (handleContextSubmission ⟨some "", some (JSValue.str "y"), Option.none, Option.none⟩
        "i1" "t" "e" KVStore.empty).1 = SubmitResult.badRequest missingFieldsMessage :=
  (C10_falsy_fields_rejected
    ⟨some "", some (JSValue.str "y"), Option.none, Option.none⟩ "i1" "t" "e"
    KVStore.empty (Or.inl rfl)).1

end ApexMCP
